import Mathlib

/-!
Verification of the drop-simulation core of `rmatrix` (src/main.rs).

The Rust code is shallowly embedded: machine integers (`u8`, `u16`, `usize`)
become `Nat`, with an explicit `% 256` / `% 65536` exactly where the source
performs wrapping arithmetic, and `Nat` truncated subtraction modelling
`saturating_sub`.  Operations that can panic (integer division by zero,
`gen_range` on an empty range) return `Option`, with `none` marking the panic;
operations that can return `Err` return `Except`.  Side effects on the
terminal are modelled as explicit lists of queued operations.
-/

namespace Rmatrix

/-- `crossterm::style::Color`, restricted to the shapes `main.rs` distinguishes:
`Reset` (the first match arm of `get_parts`), `Rgb` (the gradient arm),
`White` (the spark color), and all other named/indexed colors, abstracted by
an index (they all land in the `_` arm). -/
inductive Color where
  | reset
  | white
  | rgb (r g b : Nat)
  | named (n : Nat)
deriving DecidableEq

/-- `struct RainDropPart(char, Color)`. -/
structure RainDropPart where
  ch : Char
  color : Color
deriving DecidableEq

instance : Inhabited RainDropPart := ⟨⟨Char.ofNat 32, Color.reset⟩⟩

/-- `struct RainDrop { length: u8, color: Color, speed: u8, y: u16, x: u16 }`. -/
structure RainDrop where
  length : Nat
  color : Color
  speed : Nat
  y : Nat
  x : Nat
deriving DecidableEq

instance : Inhabited RainDrop := ⟨⟨0, Color.reset, 0, 0, 0⟩⟩

/-- `get_all_unicode_chars()`: code points `33..=0x7F`, non-whitespace ones
(all 95 of them are non-whitespace). -/
def get_all_unicode_chars : List Char :=
  ((List.range' 33 95).map Char.ofNat).filter (fun c => !c.isWhitespace)

/-- `RainDrop::get_char_for_part`.  The source hashes the drop's memory
address (`self as *const Self as usize`); the address is passed here as the
explicit parameter `addr`. -/
def RainDrop.get_char_for_part (addr : Nat) (d : RainDrop) (i : Nat) : Char :=
  let hash := addr * 31 + (d.y + i) * 31
  get_all_unicode_chars.getD (hash % get_all_unicode_chars.length) (Char.ofNat 32)

/-- The `for i in 0..self.length` loop of the `Color::Rgb` arm of
`get_parts`: push the current `(new_r, new_g, new_b)`, then `wrapping_add`
the per-channel step (`% 256` is the `u8` wrap).  `fuel` counts the remaining
iterations, `i` is the loop index. -/
def gradientLoop (addr : Nat) (d : RainDrop) (sr sg sb : Nat) :
    Nat → Nat → Nat → Nat → Nat → List RainDropPart
  | _, _, _, _, 0 => []
  | i, nr, ng, nb, fuel + 1 =>
    ⟨d.get_char_for_part addr i, Color.rgb nr ng nb⟩ ::
      gradientLoop addr d sr sg sb (i + 1)
        ((nr + sr) % 256) ((ng + sg) % 256) ((nb + sb) % 256) fuel

/-- `RainDrop::get_parts`.  Returns `none` when the source panics: in the
`Color::Rgb` arm, `r / self.length` is `u8` division, which panics when
`length = 0`.  The final push is the white spark at index `res.len()`. -/
def RainDrop.get_parts (addr : Nat) (d : RainDrop) : Option (List RainDropPart) :=
  match d.color with
  | Color.reset =>
    some [⟨d.get_char_for_part addr 0, Color.white⟩]
  | Color.rgb r g b =>
    if d.length = 0 then
      none
    else
      let body := gradientLoop addr d (r / d.length) (g / d.length) (b / d.length)
        0 0 0 0 d.length
      some (body ++ [⟨d.get_char_for_part addr body.length, Color.white⟩])
  | c =>
    let body := (List.range d.length).map
      (fun i => (⟨d.get_char_for_part addr i, c⟩ : RainDropPart))
    some (body ++ [⟨d.get_char_for_part addr body.length, Color.white⟩])

/-- One queued positioning + colored-glyph write emitted by `RainDrop::draw`:
`MoveTo(x, row)` followed by `SetForegroundColor(color)` and `Print(ch)`.
`offset` is the index of the part in `get_parts`. -/
structure CellWrite where
  offset : Nat
  row : Nat
  x : Nat
  color : Color
  ch : Char
deriving DecidableEq

/-- `RainDrop::draw` for a given viewport height `buffer_h` (the source reads
it from `size()?`).  The row of part `i` is
`(self.y + i as u16).saturating_sub(self.length as u16)`: `u16` addition wraps
at `2^16`, saturating subtraction is `Nat` truncated subtraction.  Parts are
enumerated (modelled by indexing into `parts`), filtered by
`(0..buffer_h).contains(&row)`, and each survivor queues one write.
`none` propagates a panic of `get_parts`. -/
def RainDrop.draw (addr : Nat) (d : RainDrop) (buffer_h : Nat) :
    Option (List CellWrite) :=
  (d.get_parts addr).map (fun parts =>
    ((List.range parts.length).filter
        (fun i => (d.y + i) % 65536 - d.length < buffer_h)).map
      (fun i =>
        { offset := i
          row := (d.y + i) % 65536 - d.length
          x := d.x
          color := (parts.getD i default).color
          ch := (parts.getD i default).ch }))

/-- `RainDrop::is_end` for viewport height `buffer_h`:
`self.y.saturating_sub(self.length as u16) > buffer_h`. -/
def RainDrop.is_end (d : RainDrop) (buffer_h : Nat) : Bool :=
  decide (d.y - d.length > buffer_h)

/-- `RainDrop::fall`: `self.y = self.y + self.speed as u16` — `u16`
addition, so the sum wraps at `2^16`. -/
def RainDrop.fall (d : RainDrop) : RainDrop :=
  { d with y := (d.y + d.speed) % 65536 }

/-- `rand::Rng::gen_range(lo..hi)` on integers, with the sampled raw value
`r` supplied explicitly: uniform choice in `[lo, hi)`; panics (`none`) when
the range is empty. -/
def gen_range (lo hi r : Nat) : Option Nat :=
  if lo < hi then some (lo + r % (hi - lo)) else none

/-- `RainDrop::new`: stores the caller-supplied `length`, `color`, `x`, and
samples `y` from `gen_range(1..8)` and `speed` from `gen_range(1..3)` (both
ranges are nonempty, so the `getD 0` default is never used).  `yR`/`sR` are
the raw random values. -/
def RainDrop.new (length : Nat) (color : Color) (x : Nat) (yR sR : Nat) : RainDrop :=
  { length := length
    color := color
    x := x
    y := (gen_range 1 8 yR).getD 0
    speed := (gen_range 1 3 sR).getD 0 }

/-- `enum RainStyle`. -/
inductive RainStyle where
  | solid (c : Color)
  | rainbow

/-- `struct Rain` (the `RainField` of the spec).  `drop_length_range` is the
half-open `Range<u8>` `len_lo..len_hi`; `frame_delay` is kept abstract as a
`Nat`. -/
structure Rain where
  drops_count : Nat
  len_lo : Nat
  len_hi : Nat
  frame_delay : Nat
  style : RainStyle
  drops : List RainDrop

/-- The raw random values one call to `add_new_drop` consumes. -/
structure RngInput where
  lenR : Nat
  xR : Nat
  rR : Nat
  gR : Nat
  bR : Nat
  yR : Nat
  sR : Nat

/-- The error kinds of the program: `ViewportError` (terminal size query
failed) and `IoError` (a queued write or the flush failed). -/
inductive Err where
  | ioError
  | viewportError
deriving DecidableEq

/-- `Rain::add_new_drop`.  `sz` is the result of `size()` (`none` = the query
failed, propagated with `?` as a `ViewportError`).  After a successful query,
`gen_range(self.drop_length_range)` runs first and `gen_range(0..buffer_w)`
second; either panics (`Except.ok none`) on an empty range.  The rainbow
channels come from `gen_range(0..255)`, which never fails. -/
def Rain.add_new_drop (rain : Rain) (sz : Option (Nat × Nat)) (rng : RngInput) :
    Except Err (Option Rain) :=
  match sz with
  | none => Except.error Err.viewportError
  | some (buffer_w, _) =>
    match gen_range rain.len_lo rain.len_hi rng.lenR with
    | none => Except.ok none
    | some len =>
      match gen_range 0 buffer_w rng.xR with
      | none => Except.ok none
      | some x =>
        let d := match rain.style with
          | RainStyle.solid c => RainDrop.new len c x rng.yR rng.sR
          | RainStyle.rainbow =>
            RainDrop.new len
              (Color.rgb ((gen_range 0 255 rng.rR).getD 0)
                ((gen_range 0 255 rng.gR).getD 0)
                ((gen_range 0 255 rng.bR).getD 0))
              x rng.yR rng.sR
        Except.ok (some { rain with drops := rain.drops ++ [d] })

/-- The `for _ in 0..drops_count { s.add_new_drop()? }` loop of `Rain::new`:
`count` iterations remain, `k` indexes the random stream.  A `ViewportError`
propagates; a panic inside `add_new_drop` (`ok none`) aborts construction. -/
def initLoop (sz : Option (Nat × Nat)) (rngs : Nat → RngInput) :
    Nat → Nat → Rain → Except Err (Option Rain)
  | 0, _, s => Except.ok (some s)
  | count + 1, k, s =>
    match s.add_new_drop sz (rngs k) with
    | Except.error e => Except.error e
    | Except.ok none => Except.ok none
    | Except.ok (some s') => initLoop sz rngs count (k + 1) s'

/-- `Rain::new`: starts from an empty drop vector and adds `drops_count`
drops. -/
def Rain.new (drops_count len_lo len_hi frame_delay : Nat) (style : RainStyle)
    (sz : Option (Nat × Nat)) (rngs : Nat → RngInput) : Except Err (Option Rain) :=
  initLoop sz rngs drops_count 0
    { drops_count := drops_count
      len_lo := len_lo
      len_hi := len_hi
      frame_delay := frame_delay
      style := style
      drops := [] }

/-- One queued terminal operation of a tick of `Rain::draw`'s `loop`, at the
per-drop granularity the orchestration works with: the draw of the drop at
loop index `i` (its cell writes are modelled by `RainDrop.draw`), the
tail-clear of the drop at loop index `i` (`clear_tail` queues `speed` blank
writes, abstracted to one op), and the end-of-tick `flush`. -/
inductive Op where
  | draw (i : Nat)
  | clearTail (i : Nat)
  | flush
deriving DecidableEq

/-- The environment a tick runs in: the viewport height `h` from `size()`,
whether the queued writes of the draw / tail-clear of loop iteration `i`
fail, whether the flush fails, and the outcome of the `j`-th
`add_new_drop()?` call (`none` = it aborts the tick). -/
structure TickEnv where
  h : Nat
  drawFails : Nat → Bool
  clearFails : Nat → Bool
  flushFails : Bool
  newDrop : Nat → Option RainDrop

/-- `Vec::swap_remove(i)`: overwrite index `i` with the last element and pop
the last element.  (The source only calls it with `i < len`.) -/
def swapRemove {α : Type} (l : List α) (i : Nat) : List α :=
  match l.getLast? with
  | none => l
  | some last => (l.set i last).dropLast

/-- The body of `for i in 0..self.drops.len()` in `Rain::draw`, with the
flush that follows the loop.  `count` is the number of iterations left
(`drops.len()` is read once, before the loop; the net length change of
`swap_remove` + `push` is zero), `i` the loop index, `j` indexes the
replacement-drop stream, `trace` the queued terminal ops so far.
Per iteration, exactly as in the source:
`self.drops[i].draw()?` (a failure propagates), `self.drops[i].fall()`,
`self.drops[i].clear_tail();` — the returned `Result` is DISCARDED, so a
failure there queues nothing but does not abort — then
`if self.drops[i].is_end()? { self.drops.swap_remove(i); self.add_new_drop()?; }`.
After the loop, `stdout.flush()?`. -/
def tickLoop (env : TickEnv) :
    Nat → Nat → List RainDrop → Nat → List Op →
    Except Err (List RainDrop × Nat × List Op)
  | 0, _, drops, j, trace =>
    if env.flushFails then Except.error Err.ioError
    else Except.ok (drops, j, trace ++ [Op.flush])
  | count + 1, i, drops, j, trace =>
    if env.drawFails i then Except.error Err.ioError
    else
      let d := (drops.getD i default).fall
      let drops1 := drops.set i d
      let clearOps := if env.clearFails i then [] else [Op.clearTail i]
      let trace1 := trace ++ [Op.draw i] ++ clearOps
      if d.is_end env.h then
        match env.newDrop j with
        | none => Except.error Err.viewportError
        | some nd => tickLoop env count (i + 1) (swapRemove drops1 i ++ [nd]) (j + 1) trace1
      else
        tickLoop env count (i + 1) drops1 j trace1

/-- One complete tick of `Rain::draw`'s `loop` over the current drop
collection. -/
def tick (env : TickEnv) (drops : List RainDrop) :
    Except Err (List RainDrop × Nat × List Op) :=
  tickLoop env drops.length 0 drops 0 []

/-- The per-drop op pattern a failure-free tick queues, starting at loop
index `i` with `count` drops left: draw of drop `i`, then its tail-clear,
then the next drop. -/
def perDropTrace : Nat → Nat → List Op
  | _, 0 => []
  | i, count + 1 => Op.draw i :: Op.clearTail i :: perDropTrace (i + 1) count

/-! ### Helper lemmas -/

theorem gradientLoop_length (addr : Nat) (d : RainDrop) (sr sg sb : Nat) :
    ∀ (fuel i nr ng nb : Nat),
      (gradientLoop addr d sr sg sb i nr ng nb fuel).length = fuel := by
  intro fuel
  induction fuel with
  | zero => intro i nr ng nb; simp [gradientLoop]
  | succ n ih => intro i nr ng nb; simp [gradientLoop, ih]

theorem gradientLoop_getD (addr : Nat) (d : RainDrop) (sr sg sb : Nat) :
    ∀ (k fuel i nr ng nb : Nat), k < fuel → nr < 256 → ng < 256 → nb < 256 →
      (gradientLoop addr d sr sg sb i nr ng nb fuel).getD k default =
        ⟨d.get_char_for_part addr (i + k),
          Color.rgb ((nr + k * sr) % 256) ((ng + k * sg) % 256) ((nb + k * sb) % 256)⟩ := by
  intro k
  induction k with
  | zero =>
    intro fuel i nr ng nb hk hr hg hb
    match fuel, hk with
    | fuel + 1, _ =>
      simp [gradientLoop, Nat.mod_eq_of_lt hr, Nat.mod_eq_of_lt hg, Nat.mod_eq_of_lt hb]
  | succ k ih =>
    intro fuel i nr ng nb hk hr hg hb
    match fuel, hk with
    | fuel + 1, hk =>
      have hk' : k < fuel := Nat.lt_of_succ_lt_succ hk
      have := ih fuel (i + 1) ((nr + sr) % 256) ((ng + sg) % 256) ((nb + sb) % 256)
        hk' (Nat.mod_lt _ (by omega)) (Nat.mod_lt _ (by omega)) (Nat.mod_lt _ (by omega))
      simp only [gradientLoop, List.getD_cons_succ, this, Nat.mod_add_mod]
      have harith : ∀ a s : Nat, a + s + k * s = a + (k + 1) * s := by
        intro a s; ring
      rw [harith nr sr, harith ng sg, harith nb sb]
      have : i + 1 + k = i + (k + 1) := by omega
      rw [this]

theorem swapRemove_length {α : Type} (l : List α) (i : Nat) (h : 0 < l.length) :
    (swapRemove l i).length = l.length - 1 := by
  unfold swapRemove
  match hl : l.getLast? with
  | none =>
    rw [List.getLast?_eq_none_iff] at hl
    subst hl; simp at h
  | some a =>
    simp [List.length_dropLast, List.length_set]

theorem get_parts_length_of_not_reset (addr : Nat) (d : RainDrop)
    (ps : List RainDropPart) (hps : d.get_parts addr = some ps)
    (hc : d.color ≠ Color.reset) : ps.length = d.length + 1 := by
  unfold RainDrop.get_parts at hps
  match hcol : d.color with
  | Color.reset => exact absurd hcol hc
  | Color.rgb r g b =>
    rw [hcol] at hps
    by_cases h0 : d.length = 0
    · simp [h0] at hps
    · simp only [h0, if_false] at hps
      rw [← Option.some_inj.mp hps]
      simp [gradientLoop_length]
  | Color.white =>
    rw [hcol] at hps
    rw [← Option.some_inj.mp hps]; simp
  | Color.named n =>
    rw [hcol] at hps
    rw [← Option.some_inj.mp hps]; simp

theorem exists_getLast_white (l : List RainDropPart) (c : Char) :
    ∃ p, (l ++ [(⟨c, Color.white⟩ : RainDropPart)]).getLast? = some p ∧
      p.color = Color.white :=
  ⟨⟨c, Color.white⟩, by rw [List.getLast?_append_cons]; rfl, rfl⟩

theorem get_parts_getLast_white (addr : Nat) (d : RainDrop)
    (ps : List RainDropPart) (hps : d.get_parts addr = some ps) :
    ∃ p, ps.getLast? = some p ∧ p.color = Color.white := by
  unfold RainDrop.get_parts at hps
  match hcol : d.color with
  | Color.reset =>
    rw [hcol] at hps
    rw [← Option.some_inj.mp hps]
    exact exists_getLast_white [] _
  | Color.rgb r g b =>
    rw [hcol] at hps
    by_cases h0 : d.length = 0
    · simp [h0] at hps
    · simp only [h0, if_false] at hps
      rw [← Option.some_inj.mp hps]
      exact exists_getLast_white _ _
  | Color.white =>
    rw [hcol] at hps
    rw [← Option.some_inj.mp hps]
    exact exists_getLast_white _ _
  | Color.named n =>
    rw [hcol] at hps
    rw [← Option.some_inj.mp hps]
    exact exists_getLast_white _ _

theorem add_new_drop_some_length (rain r' : Rain) (sz : Option (Nat × Nat))
    (rng : RngInput) (h : rain.add_new_drop sz rng = Except.ok (some r')) :
    r'.drops.length = rain.drops.length + 1 := by
  unfold Rain.add_new_drop at h
  split at h
  · simp at h
  · split at h
    · simp at h
    · split at h
      · simp at h
      · simp only [Except.ok.injEq, Option.some.injEq] at h
        rw [← h]
        simp

theorem initLoop_length (sz : Option (Nat × Nat)) (rngs : Nat → RngInput) :
    ∀ (count k : Nat) (s s' : Rain),
      initLoop sz rngs count k s = Except.ok (some s') →
      s'.drops.length = s.drops.length + count := by
  intro count
  induction count with
  | zero =>
    intro k s s' h
    simp only [initLoop, Except.ok.injEq, Option.some.injEq] at h
    rw [← h]
    omega
  | succ n ih =>
    intro k s s' h
    unfold initLoop at h
    match hadd : s.add_new_drop sz (rngs k) with
    | Except.error e => rw [hadd] at h; simp at h
    | Except.ok none => rw [hadd] at h; simp at h
    | Except.ok (some s1) =>
      rw [hadd] at h
      have h1 := add_new_drop_some_length _ _ _ _ hadd
      have h2 := ih (k + 1) s1 s' h
      omega

theorem tickLoop_zero (env : TickEnv) (i : Nat) (drops : List RainDrop) (j : Nat)
    (trace : List Op) :
    tickLoop env 0 i drops j trace =
      if env.flushFails then Except.error Err.ioError
      else Except.ok (drops, j, trace ++ [Op.flush]) := rfl

theorem tickLoop_succ_drawFail (env : TickEnv) (count i : Nat)
    (drops : List RainDrop) (j : Nat) (trace : List Op)
    (hd : env.drawFails i = true) :
    tickLoop env (count + 1) i drops j trace = Except.error Err.ioError := by
  simp only [tickLoop]
  rw [hd]
  rfl

theorem tickLoop_succ_noEnd (env : TickEnv) (count i : Nat)
    (drops : List RainDrop) (j : Nat) (trace : List Op)
    (hd : env.drawFails i = false)
    (hend : ((drops.getD i default).fall).is_end env.h = false) :
    tickLoop env (count + 1) i drops j trace =
      tickLoop env count (i + 1) (drops.set i ((drops.getD i default).fall)) j
        (trace ++ [Op.draw i] ++ (if env.clearFails i then [] else [Op.clearTail i])) := by
  simp only [tickLoop]
  rw [hd, hend]
  rfl

theorem tickLoop_succ_end (env : TickEnv) (count i : Nat)
    (drops : List RainDrop) (j : Nat) (trace : List Op) (nd : RainDrop)
    (hd : env.drawFails i = false)
    (hend : ((drops.getD i default).fall).is_end env.h = true)
    (hnd : env.newDrop j = some nd) :
    tickLoop env (count + 1) i drops j trace =
      tickLoop env count (i + 1)
        (swapRemove (drops.set i ((drops.getD i default).fall)) i ++ [nd]) (j + 1)
        (trace ++ [Op.draw i] ++ (if env.clearFails i then [] else [Op.clearTail i])) := by
  simp only [tickLoop]
  rw [hd, hend, hnd]
  rfl

theorem tickLoop_succ_newFail (env : TickEnv) (count i : Nat)
    (drops : List RainDrop) (j : Nat) (trace : List Op)
    (hd : env.drawFails i = false)
    (hend : ((drops.getD i default).fall).is_end env.h = true)
    (hnd : env.newDrop j = none) :
    tickLoop env (count + 1) i drops j trace = Except.error Err.viewportError := by
  simp only [tickLoop]
  rw [hd, hend, hnd]
  rfl

theorem tickLoop_length (env : TickEnv) :
    ∀ (count i : Nat) (drops : List RainDrop) (j : Nat) (trace : List Op)
      (res : List RainDrop × Nat × List Op),
      count ≤ drops.length →
      tickLoop env count i drops j trace = Except.ok res →
      res.1.length = drops.length := by
  intro count
  induction count with
  | zero =>
    intro i drops j trace res hle h
    rw [tickLoop_zero] at h
    by_cases hf : env.flushFails
    · simp [hf] at h
    · rw [if_neg hf] at h
      simp only [Except.ok.injEq] at h
      rw [← h]
  | succ n ih =>
    intro i drops j trace res hle h
    cases hd : env.drawFails i with
    | true =>
      rw [tickLoop_succ_drawFail env n i drops j trace hd] at h
      simp at h
    | false =>
      cases hend : ((drops.getD i default).fall).is_end env.h with
      | false =>
        rw [tickLoop_succ_noEnd env n i drops j trace hd hend] at h
        have := ih (i + 1) _ j _ res (by simp only [List.length_set]; omega) h
        rw [this]
        simp only [List.length_set]
      | true =>
        cases hnd : env.newDrop j with
        | none =>
          rw [tickLoop_succ_newFail env n i drops j trace hd hend hnd] at h
          simp at h
        | some nd =>
          rw [tickLoop_succ_end env n i drops j trace nd hd hend hnd] at h
          have hpos : 0 < (drops.set i ((drops.getD i default).fall)).length := by
            simp only [List.length_set]; omega
          have hlen2 :
              (swapRemove (drops.set i ((drops.getD i default).fall)) i ++ [nd]).length =
                drops.length := by
            rw [List.length_append, swapRemove_length _ _ hpos]
            simp only [List.length_set, List.length_cons, List.length_nil]
            omega
          have := ih (i + 1) _ (j + 1) _ res (by rw [hlen2]; omega) h
          rw [this, hlen2]

theorem tickLoop_trace (env : TickEnv)
    (hdraw : ∀ i, env.drawFails i = false)
    (hclear : ∀ i, env.clearFails i = false)
    (hflush : env.flushFails = false)
    (hnew : ∀ j, (env.newDrop j).isSome) :
    ∀ (count i : Nat) (drops : List RainDrop) (j : Nat) (trace : List Op),
      ∃ drops' j', tickLoop env count i drops j trace =
        Except.ok (drops', j', trace ++ perDropTrace i count ++ [Op.flush]) := by
  intro count
  induction count with
  | zero =>
    intro i drops j trace
    refine ⟨drops, j, ?_⟩
    rw [tickLoop_zero, if_neg (by rw [hflush]; simp)]
    simp [perDropTrace]
  | succ n ih =>
    intro i drops j trace
    cases hend : ((drops.getD i default).fall).is_end env.h with
    | false =>
      obtain ⟨d', j', hrec⟩ := ih (i + 1) (drops.set i ((drops.getD i default).fall)) j
        (trace ++ [Op.draw i] ++ [Op.clearTail i])
      refine ⟨d', j', ?_⟩
      rw [tickLoop_succ_noEnd env n i drops j trace (hdraw i) hend]
      rw [hclear i, if_neg Bool.false_ne_true]
      rw [hrec]
      simp [perDropTrace, List.append_assoc]
    | true =>
      cases hnd : env.newDrop j with
      | none =>
        have := hnew j
        rw [hnd] at this
        simp at this
      | some nd =>
        obtain ⟨d', j', hrec⟩ := ih (i + 1)
          (swapRemove (drops.set i ((drops.getD i default).fall)) i ++ [nd]) (j + 1)
          (trace ++ [Op.draw i] ++ [Op.clearTail i])
        refine ⟨d', j', ?_⟩
        rw [tickLoop_succ_end env n i drops j trace nd (hdraw i) hend hnd]
        rw [hclear i, if_neg Bool.false_ne_true]
        rw [hrec]
        simp [perDropTrace, List.append_assoc]

/-! ### Concrete instances used by witnesses and counterexamples -/

/-- A solid-white drop: length 5, speed 1, head row 1, column 0. -/
def dA : RainDrop := ⟨5, Color.white, 1, 1, 0⟩

/-- A second solid-white drop: length 4, speed 2, head row 3, column 1. -/
def dB : RainDrop := ⟨4, Color.white, 2, 3, 1⟩

/-- An RGB drop with head color (200, 100, 7) and length 3. -/
def dRgb : RainDrop := ⟨3, Color.rgb 200 100 7, 1, 2, 0⟩

/-- A reset-colored drop of length 2. -/
def dReset : RainDrop := ⟨2, Color.reset, 1, 1, 0⟩

/-- A drop whose whole body is above the top edge: head row 0, length 5. -/
def dTop : RainDrop := ⟨5, Color.white, 1, 0, 3⟩

/-- A drop at the top of the `u16` range: `y = 65535`, speed 1. -/
def dWrap : RainDrop := ⟨5, Color.white, 1, 65535, 0⟩

/-- A drop sitting exactly at the exhaustion boundary for height 4:
`y = length + 4`. -/
def dBdry : RainDrop := ⟨3, Color.white, 1, 7, 0⟩

/-- Fixed random input. -/
def rngZero : RngInput := ⟨0, 0, 0, 0, 0, 0, 0⟩

/-- A tick environment in which nothing fails (height 10). -/
def envNoFail : TickEnv := ⟨10, fun _ => false, fun _ => false, false, fun _ => some default⟩

/-- A tick environment in which every tail-clear write fails but nothing
else does. -/
def envClearFail : TickEnv := ⟨10, fun _ => false, fun _ => true, false, fun _ => some default⟩

/-! ### Claims -/

/-- C1: for every drop whose color is an RGB triple `(r, g, b)` and whose
length is `L ≥ 1`, `get_parts` assigns to offset 0 the color `(0, 0, 0)`,
and to every offset `i < L` the per-channel value `(i * (c / L)) % 256`,
where `c / L` is truncating division and the accumulation is wrapping
mod-256 addition. -/
theorem C1_rgb_gradient (addr : Nat) (d : RainDrop) (r g b : Nat)
    (hcol : d.color = Color.rgb r g b) (hlen : 1 ≤ d.length) :
    ∃ ps, d.get_parts addr = some ps ∧
      (ps.getD 0 default).color = Color.rgb 0 0 0 ∧
      ∀ i, i < d.length →
        (ps.getD i default).color =
          Color.rgb ((i * (r / d.length)) % 256) ((i * (g / d.length)) % 256)
            ((i * (b / d.length)) % 256) := by
  have h0 : ¬ d.length = 0 := by omega
  have hps : d.get_parts addr =
      some (gradientLoop addr d (r / d.length) (g / d.length) (b / d.length) 0 0 0 0 d.length ++
        [⟨d.get_char_for_part addr
            (gradientLoop addr d (r / d.length) (g / d.length) (b / d.length)
              0 0 0 0 d.length).length,
          Color.white⟩]) := by
    unfold RainDrop.get_parts
    rw [hcol]
    simp only [h0, if_false]
  have hlenB :
      (gradientLoop addr d (r / d.length) (g / d.length) (b / d.length)
        0 0 0 0 d.length).length = d.length :=
    gradientLoop_length addr d _ _ _ d.length 0 0 0 0
  refine ⟨_, hps, ?_, ?_⟩
  · rw [List.getD_append _ _ _ _ (by rw [hlenB]; omega)]
    rw [gradientLoop_getD addr d _ _ _ 0 d.length 0 0 0 0 (by omega)
      (by omega) (by omega) (by omega)]
    simp
  · intro i hi
    rw [List.getD_append _ _ _ _ (by rw [hlenB]; omega)]
    rw [gradientLoop_getD addr d _ _ _ i d.length 0 0 0 0 hi
      (by omega) (by omega) (by omega)]
    simp

/-- Witness for C1 at the concrete drop `dRgb` (length 3, color
(200, 100, 7)). -/
theorem C1_rgb_gradient_witness :
    dRgb.color = Color.rgb 200 100 7 ∧ 1 ≤ dRgb.length ∧
      (∃ ps, dRgb.get_parts 7 = some ps ∧
        (ps.getD 0 default).color = Color.rgb 0 0 0 ∧
        ∀ i, i < dRgb.length →
          (ps.getD i default).color =
            Color.rgb ((i * (200 / dRgb.length)) % 256)
              ((i * (100 / dRgb.length)) % 256) ((i * (7 / dRgb.length)) % 256)) :=
  ⟨rfl, by decide, C1_rgb_gradient 7 dRgb 200 100 7 rfl (by decide)⟩

/-- C2 counterexample: a reset-colored drop of length 2.  `get_parts`
returns exactly 1 entry (the white spark alone), not `length + 1 = 3`:
the reset arm pushes no gradient cells. -/
theorem C2_counterexample :
    dReset.color = Color.reset ∧
    (dReset.get_parts 0).map List.length = some 1 ∧
    (dReset.get_parts 0).map List.length ≠ some (dReset.length + 1) := by
  refine ⟨rfl, rfl, by decide⟩

/-- C2 amended: whenever `get_parts` returns, it returns `length + 1`
entries for every non-reset color (RGB or fixed), but exactly 1 entry for
the reset variant; in all cases the final entry's color is White. -/
theorem C2_parts_count_amended (addr : Nat) (d : RainDrop)
    (ps : List RainDropPart) (hps : d.get_parts addr = some ps) :
    (d.color = Color.reset → ps.length = 1) ∧
    (d.color ≠ Color.reset → ps.length = d.length + 1) ∧
    ∃ p, ps.getLast? = some p ∧ p.color = Color.white := by
  refine ⟨?_, fun hc => get_parts_length_of_not_reset addr d ps hps hc,
    get_parts_getLast_white addr d ps hps⟩
  intro hc
  unfold RainDrop.get_parts at hps
  rw [hc] at hps
  simp only [Option.some.injEq] at hps
  rw [← hps]
  rfl

/-- Witness for C2 (amended) at the concrete drop `dRgb`. -/
theorem C2_parts_count_amended_witness :
    (dRgb.get_parts 0).isSome = true ∧
    ((dRgb.get_parts 0).getD [] ≠ [] →
      ((dRgb.get_parts 0).getD []).length = dRgb.length + 1) := by
  refine ⟨rfl, fun _ => ?_⟩
  have h := C2_parts_count_amended 0 dRgb ((dRgb.get_parts 0).getD []) rfl
  exact h.2.1 (by decide)

/-- C3: the live drop collection has size `drops_count` right after
`Rain::new` succeeds, and a complete (error-free) tick of `Rain::draw`'s
loop preserves the size, including when drops are swap-removed and
replaced. -/
theorem C3_population_invariant
    (n len_lo len_hi frame_delay : Nat) (style : RainStyle)
    (sz : Option (Nat × Nat)) (rngs : Nat → RngInput) (rain : Rain)
    (env : TickEnv) (drops : List RainDrop)
    (res : List RainDrop × Nat × List Op) :
    (Rain.new n len_lo len_hi frame_delay style sz rngs = Except.ok (some rain) →
      rain.drops.length = n) ∧
    (drops.length = n → tick env drops = Except.ok res → res.1.length = n) := by
  constructor
  · intro h
    have := initLoop_length sz rngs n 0 _ rain h
    simpa using this
  · intro hlen htick
    have := tickLoop_length env drops.length 0 drops 0 [] res (le_refl _) htick
    omega

/-- Witness for C3: a one-drop field keeps exactly one drop across a
concrete tick. -/
theorem C3_population_invariant_witness :
    ([dA].length = 1) ∧
    tick envNoFail [dA] =
      Except.ok ([(⟨5, Color.white, 1, 2, 0⟩ : RainDrop)], 0,
        [Op.draw 0, Op.clearTail 0, Op.flush]) ∧
    (([(⟨5, Color.white, 1, 2, 0⟩ : RainDrop)], 0,
      [Op.draw 0, Op.clearTail 0, Op.flush]) :
        List RainDrop × Nat × List Op).1.length = 1 :=
  ⟨rfl, rfl,
    (C3_population_invariant 1 6 20 100 (RainStyle.solid Color.white)
      (some (80, 24)) (fun _ => rngZero)
      ⟨1, 6, 20, 100, RainStyle.solid Color.white, []⟩
      envNoFail [dA]
      ([(⟨5, Color.white, 1, 2, 0⟩ : RainDrop)], 0,
        [Op.draw 0, Op.clearTail 0, Op.flush])).2 rfl rfl⟩

/-- C4: `is_end h` is false exactly while `y - length ≤ h` (saturating
subtraction); at the boundary `y = length + h` it is false, and at
`y = length + h + 1` it is true. -/
theorem C4_is_end_boundary (d : RainDrop) (h : Nat) :
    (d.is_end h = false ↔ d.y - d.length ≤ h) ∧
    (d.y = d.length + h → d.is_end h = false) ∧
    (d.y = d.length + h + 1 → d.is_end h = true) := by
  unfold RainDrop.is_end
  refine ⟨?_, ?_, ?_⟩
  · simp only [decide_eq_false_iff_not, not_lt]
  · intro hy
    simp only [decide_eq_false_iff_not, not_lt]
    omega
  · intro hy
    simp only [decide_eq_true_eq]
    omega

/-- Witness for C4 at the boundary drop `dBdry` (`y = length + 4`) and
height 4. -/
theorem C4_is_end_boundary_witness :
    (dBdry.is_end 4 = false ↔ dBdry.y - dBdry.length ≤ 4) ∧
    (dBdry.y = dBdry.length + 4 → dBdry.is_end 4 = false) ∧
    (dBdry.y = dBdry.length + 4 + 1 → dBdry.is_end 4 = true) :=
  C4_is_end_boundary dBdry 4

/-- C5 counterexample: a drop whose whole body lies above the top edge
(`y = 0`, `length = 5`).  The claim says cells with `y + i < length` are
skipped entirely; the code instead clamps their row to 0 with
`saturating_sub` and emits writes there: all six cells (offsets 0..5) are
written at row 0. -/
theorem C5_counterexample :
    dTop.y + 0 < dTop.length ∧
    (dTop.draw 0 10).map (List.map CellWrite.offset) = some [0, 1, 2, 3, 4, 5] ∧
    (dTop.draw 0 10).map (List.map CellWrite.row) = some [0, 0, 0, 0, 0, 0] := by
  refine ⟨by decide, by decide, by decide⟩

/-- C5 amended: `draw` emits a write for the cell at offset `i` exactly when
the clamped row `((y + i) mod 2^16).saturating_sub(length)` lies in
`[0, h)` — cells above the top are clamped to row 0 and drawn whenever
`h > 0` — and every emitted write targets a row in `[0, h)`. -/
theorem C5_draw_rows_amended (addr : Nat) (d : RainDrop) (h : Nat)
    (ps : List RainDropPart) (hps : d.get_parts addr = some ps) :
    ∃ ws, d.draw addr h = some ws ∧
      (∀ w ∈ ws, w.row < h) ∧
      (∀ i, i < ps.length →
        ((∃ w ∈ ws, w.offset = i) ↔ (d.y + i) % 65536 - d.length < h)) := by
  have hdw : d.draw addr h = some (((List.range ps.length).filter
      (fun i => (d.y + i) % 65536 - d.length < h)).map
        (fun i => { offset := i
                    row := (d.y + i) % 65536 - d.length
                    x := d.x
                    color := (ps.getD i default).color
                    ch := (ps.getD i default).ch })) := by
    unfold RainDrop.draw
    rw [hps]
    rfl
  refine ⟨_, hdw, ?_, ?_⟩
  · intro w hw
    simp only [List.mem_map, List.mem_filter, List.mem_range,
      decide_eq_true_eq] at hw
    obtain ⟨i, ⟨hi, hcond⟩, rfl⟩ := hw
    exact hcond
  · intro i hi
    constructor
    · rintro ⟨w, hw, hoff⟩
      simp only [List.mem_map, List.mem_filter, List.mem_range,
        decide_eq_true_eq] at hw
      obtain ⟨i2, ⟨hi2, hcond⟩, rfl⟩ := hw
      simp only at hoff
      rw [← hoff]
      exact hcond
    · intro hcond
      refine ⟨{ offset := i
                row := (d.y + i) % 65536 - d.length
                x := d.x
                color := (ps.getD i default).color
                ch := (ps.getD i default).ch }, ?_, rfl⟩
      simp only [List.mem_map, List.mem_filter, List.mem_range,
        decide_eq_true_eq]
      exact ⟨i, ⟨hi, hcond⟩, rfl⟩

/-- Witness for C5 (amended) at the reset drop `dReset` and height 10. -/
theorem C5_draw_rows_amended_witness :
    dReset.get_parts 0 =
      some [⟨dReset.get_char_for_part 0 0, Color.white⟩] ∧
    (∃ ws, dReset.draw 0 10 = some ws ∧
      (∀ w ∈ ws, w.row < 10) ∧
      (∀ i, i < ([⟨dReset.get_char_for_part 0 0, Color.white⟩] :
          List RainDropPart).length →
        ((∃ w ∈ ws, w.offset = i) ↔
          (dReset.y + i) % 65536 - dReset.length < 10))) :=
  ⟨rfl, C5_draw_rows_amended 0 dReset 10
    [⟨dReset.get_char_for_part 0 0, Color.white⟩] rfl⟩

/-- C6: the source discards the `Result` of `clear_tail()`
(`self.drops[i].clear_tail();`, no `?`), so a tick in which every
tail-clear write fails still completes successfully — the failing writes
are silently skipped, contradicting the spec's no-partial-failure rule.
This theorem evaluates the tick at that failing input. -/
theorem C6_clear_tail_failure_ignored :
    envClearFail.clearFails 0 = true ∧
    tick envClearFail [dA] =
      Except.ok ([(⟨5, Color.white, 1, 2, 0⟩ : RainDrop)], 0,
        [Op.draw 0, Op.flush]) :=
  ⟨rfl, rfl⟩

/-- C7 counterexample: with two drops, the queued order interleaves each
drop's draw with its own tail-clear (`draw 0, clear 0, draw 1, clear 1,
flush`), not the claimed phase order (`draw 0, draw 1, clear 0, clear 1,
flush`). -/
theorem C7_counterexample :
    tick envNoFail [dA, dB] =
      Except.ok ([(⟨5, Color.white, 1, 2, 0⟩ : RainDrop),
          (⟨4, Color.white, 2, 5, 1⟩ : RainDrop)], 0,
        [Op.draw 0, Op.clearTail 0, Op.draw 1, Op.clearTail 1, Op.flush]) ∧
    [Op.draw 0, Op.clearTail 0, Op.draw 1, Op.clearTail 1, Op.flush] ≠
      [Op.draw 0, Op.draw 1, Op.clearTail 0, Op.clearTail 1, Op.flush] :=
  ⟨rfl, by decide⟩

/-- C7 amended: in a failure-free tick the queued terminal operations are,
per drop in collection order, that drop's draw immediately followed by its
tail-clear, and after all drops exactly one flush. -/
theorem C7_tick_op_order_amended (env : TickEnv) (drops : List RainDrop)
    (hdraw : ∀ i, env.drawFails i = false)
    (hclear : ∀ i, env.clearFails i = false)
    (hflush : env.flushFails = false)
    (hnew : ∀ j, (env.newDrop j).isSome) :
    ∃ drops2 j2, tick env drops =
      Except.ok (drops2, j2, perDropTrace 0 drops.length ++ [Op.flush]) := by
  obtain ⟨d2, j2, h⟩ :=
    tickLoop_trace env hdraw hclear hflush hnew drops.length 0 drops 0 []
  refine ⟨d2, j2, ?_⟩
  unfold tick
  simpa using h

/-- Witness for C7 (amended): the failure-free environment `envNoFail` on a
one-drop collection. -/
theorem C7_tick_op_order_amended_witness :
    ∃ drops2 j2, tick envNoFail [dA] =
      Except.ok (drops2, j2, perDropTrace 0 [dA].length ++ [Op.flush]) :=
  C7_tick_op_order_amended envNoFail [dA] (fun _ => rfl) (fun _ => rfl) rfl
    (fun _ => rfl)

/-- C8 counterexample: `fall` is `u16` addition, which wraps: at
`y = 65535`, `speed = 1` the new position is 0, so `position` is not
increased by `speed` and is not monotone. -/
theorem C8_counterexample :
    dWrap.y = 65535 ∧ dWrap.speed = 1 ∧
    (dWrap.fall).y = 0 ∧ (dWrap.fall).y < dWrap.y ∧
    (dWrap.fall).y ≠ dWrap.y + dWrap.speed :=
  ⟨rfl, rfl, by decide, by decide, by decide⟩

/-- C8 amended: `fall` sets `y` to `(y + speed) mod 2^16` and changes no
other field (in particular `column` is unchanged; `fall` is the only drop
operation that returns a modified drop).  Whenever `y + speed < 2^16` —
always true in practice — the position increases by exactly `speed`. -/
theorem C8_fall_only_y_amended (d : RainDrop) :
    (d.fall).y = (d.y + d.speed) % 65536 ∧
    (d.fall).length = d.length ∧ (d.fall).color = d.color ∧
    (d.fall).speed = d.speed ∧ (d.fall).x = d.x ∧
    (d.y + d.speed < 65536 → (d.fall).y = d.y + d.speed) := by
  refine ⟨rfl, rfl, rfl, rfl, rfl, fun hlt => ?_⟩
  unfold RainDrop.fall
  simp only
  exact Nat.mod_eq_of_lt hlt

/-- Witness for C8 (amended) at the drop `dA` (`y + speed = 2 < 2^16`). -/
theorem C8_fall_only_y_amended_witness :
    dA.y + dA.speed < 65536 ∧ (dA.fall).y = dA.y + dA.speed ∧
    (dA.fall).x = dA.x :=
  ⟨by decide, (C8_fall_only_y_amended dA).2.2.2.2.2 (by decide),
    (C8_fall_only_y_amended dA).2.2.2.2.1⟩

/-- C9: `get_parts` panics (returns `none`) exactly for an RGB-colored drop
of length 0 (the `u8` division `r / length` divides by zero), and
`RainDrop::new` accepts `length = 0` without rejecting it, so a zero-length
RGB drop constructed by `new` makes `get_parts` divide by zero. -/
theorem C9_zero_length_rgb_division (addr : Nat) (d : RainDrop) (c : Color)
    (x yR sR r g b : Nat) :
    (d.get_parts addr = none ↔
      d.length = 0 ∧ ∃ r2 g2 b2, d.color = Color.rgb r2 g2 b2) ∧
    (RainDrop.new 0 c x yR sR).length = 0 ∧
    (RainDrop.new 0 (Color.rgb r g b) x yR sR).get_parts addr = none := by
  refine ⟨?_, rfl, rfl⟩
  unfold RainDrop.get_parts
  match hcol : d.color with
  | Color.reset => simp
  | Color.rgb r2 g2 b2 =>
    by_cases h0 : d.length = 0
    · simp [h0]
    · simp [h0]
  | Color.white => simp
  | Color.named n => simp

/-- Witness for C9 at a concrete zero-length RGB drop. -/
theorem C9_zero_length_rgb_division_witness :
    ((⟨0, Color.rgb 9 9 9, 1, 1, 0⟩ : RainDrop).get_parts 3 = none ↔
      (⟨0, Color.rgb 9 9 9, 1, 1, 0⟩ : RainDrop).length = 0 ∧
        ∃ r2 g2 b2, (⟨0, Color.rgb 9 9 9, 1, 1, 0⟩ : RainDrop).color =
          Color.rgb r2 g2 b2) ∧
    (RainDrop.new 0 Color.white 2 0 0).length = 0 ∧
    (RainDrop.new 0 (Color.rgb 1 2 3) 2 0 0).get_parts 3 = none :=
  C9_zero_length_rgb_division 3 ⟨0, Color.rgb 9 9 9, 1, 1, 0⟩ Color.white 2 0 0 1 2 3

/-- C10: `add_new_drop` returns a `ViewportError` exactly when the terminal
size query fails; when the query succeeds it never returns an error — with
viewport width 0 or an empty length range it panics inside `gen_range`
(`ok none`), and with width ≥ 1 and a nonempty length range it totally
succeeds. -/
theorem C10_add_new_drop_totality (rain : Rain) (sz : Option (Nat × Nat))
    (rng : RngInput) :
    ((∃ e, rain.add_new_drop sz rng = Except.error e) ↔ sz = none) ∧
    (rain.add_new_drop none rng = Except.error Err.viewportError) ∧
    (∀ w hh, sz = some (w, hh) →
      ((rain.len_hi ≤ rain.len_lo ∨ w = 0) →
        rain.add_new_drop sz rng = Except.ok none) ∧
      (rain.len_lo < rain.len_hi → 0 < w →
        ∃ r2, rain.add_new_drop sz rng = Except.ok (some r2))) := by
  refine ⟨?_, rfl, ?_⟩
  · constructor
    · rintro ⟨e, he⟩
      match hsz : sz with
      | none => rfl
      | some (w, hh) =>
        unfold Rain.add_new_drop at he
        cases hstyle : rain.style <;> rw [hstyle] at he <;>
          by_cases hr : rain.len_lo < rain.len_hi <;>
          by_cases hw : 0 < w <;>
          simp [gen_range, hr, hw] at he
    · intro hsz
      rw [hsz]
      exact ⟨Err.viewportError, rfl⟩
  · intro w hh hsz
    subst hsz
    constructor
    · intro hemc
      unfold Rain.add_new_drop
      by_cases hr : rain.len_lo < rain.len_hi
      · have hw : ¬ 0 < w := by omega
        simp [gen_range, hr, hw]
      · simp [gen_range, hr]
    · intro hr hw
      unfold Rain.add_new_drop
      have h1 : gen_range rain.len_lo rain.len_hi rng.lenR =
          some (rain.len_lo + rng.lenR % (rain.len_hi - rain.len_lo)) := by
        simp [gen_range, hr]
      have h2 : gen_range 0 w rng.xR = some (0 + rng.xR % (w - 0)) := by
        simp [gen_range, hw]
      simp only [h1, h2]
      cases hstyle : rain.style with
      | solid c => exact ⟨_, rfl⟩
      | rainbow => exact ⟨_, rfl⟩

/-- Witness for C10 at a concrete field with length range `6..20` and a
successful size query reporting an 80-column viewport. -/
theorem C10_add_new_drop_totality_witness :
    (((∃ e, (⟨80, 6, 20, 100, RainStyle.rainbow, []⟩ : Rain).add_new_drop
        (some (80, 24)) rngZero = Except.error e) ↔
      (some (80, 24) : Option (Nat × Nat)) = none)) ∧
    ((⟨80, 6, 20, 100, RainStyle.rainbow, []⟩ : Rain).len_lo <
        (⟨80, 6, 20, 100, RainStyle.rainbow, []⟩ : Rain).len_hi ∧ 0 < 80) ∧
    (∃ r2, (⟨80, 6, 20, 100, RainStyle.rainbow, []⟩ : Rain).add_new_drop
      (some (80, 24)) rngZero = Except.ok (some r2)) :=
  ⟨(C10_add_new_drop_totality ⟨80, 6, 20, 100, RainStyle.rainbow, []⟩
      (some (80, 24)) rngZero).1,
    ⟨by decide, by decide⟩,
    ((C10_add_new_drop_totality ⟨80, 6, 20, 100, RainStyle.rainbow, []⟩
      (some (80, 24)) rngZero).2.2 80 24 rfl).2 (by decide) (by decide)⟩

end Rmatrix
